import Mathlib

/-!
Shallow embedding of the perp base-position liquidation instruction of the
mango-v4 repository (file src/programs/mango-v4/src/instructions/perp_liq_base_position.rs)
together with the supporting account state it manipulates.

Modelling conventions:
* The I80F48 fixed-point type is embedded as the exact rationals ℚ.  The
  specification (section 4.3) explicitly allows an arbitrary-precision
  rational implementation.  Overflow of the 80-bit integer part of products
  is not modelled; the two places where the source explicitly checks the
  result of a fallible numeric operation are modelled faithfully: the
  checked division (which fails on a zero divisor) and the combined
  checked_ceil / checked_floor / checked_to_num conversion to i64 (which
  fails when the rounded lot count does not fit a signed 64-bit integer).
  Both failures are unwrapped in the source, i.e. they abort the whole
  instruction; they are modelled as the Panic error.
* Public keys are natural numbers.
* The health engine, the oracle and the account retriever are external
  collaborators (spec sections 1 and 6); they enter the embedding as the
  HealthEnv record of opaque, possibly failing query functions.
* The surrounding ledger applies account mutations only when the
  instruction returns Ok; on an error every in-memory mutation is
  discarded.  perp_liq_base_position_run realises that transactional
  semantics on top of the Except-valued instruction body.
-/

abbrev Pubkey := Nat

/-- Error outcomes of the instruction.  Panic stands for an aborting unwrap
of a failed checked numeric operation in the source. -/
inductive MangoError where
  | SomeError
  | BeingLiquidated
  | HealthMustBeNegative
  | HasOpenPerpOrders
  | HealthMustBePositive
  | RequireMsgViolation
  | PerpPositionMissing
  | OracleError
  | HealthCacheError
  | Panic
deriving DecidableEq, Repr

/-- Perp market fields read by the instruction (base lot size, the initial
weights, the liquidation fee and the funding indices).  The market is not
mutated by this core (spec section 3). -/
structure PerpMarket where
  perp_market_index : Nat
  base_lot_size : Int
  init_asset_weight : ℚ
  init_liab_weight : ℚ
  liquidation_fee : ℚ
  long_funding : ℚ
  short_funding : ℚ
deriving DecidableEq, Repr

/-- A perp position of an account.  The has_open_orders flag is modelled
from the spec: a position with open resting orders may not be liquidated
(spec section 3, Derivative Position). -/
structure PerpPosition where
  market_index : Nat
  base_position_lots : Int
  quote_position_native : ℚ
  long_settled_funding : ℚ
  short_settled_funding : ℚ
  has_open_orders : Bool
deriving DecidableEq, Repr

/-- Modelled from the spec: funding settlement of a position against the
current funding index of the market (spec section 4.4; the PerpPositions
source file is not part of src/).  Settling twice in a row is a no-op the
second time because the settled indices are brought up to the market
indices. -/
def PerpPosition.settle_funding (p : PerpPosition) (m : PerpMarket) : PerpPosition :=
  let p1 :=
    if p.base_position_lots > 0 then
      { p with quote_position_native :=
          p.quote_position_native
            - (m.long_funding - p.long_settled_funding) * (p.base_position_lots : ℚ) }
    else if p.base_position_lots < 0 then
      { p with quote_position_native :=
          p.quote_position_native
            - (m.short_funding - p.short_settled_funding) * (p.base_position_lots : ℚ) }
    else p
  { p1 with long_settled_funding := m.long_funding,
            short_settled_funding := m.short_funding }

/-- Modelled from the spec: the transfer applies the base and quote deltas
to the position (spec section 4.4; the entry and break-even price
bookkeeping is an external detail there, and the PerpPositions source file
is not part of src/).  The market argument mirrors the source signature;
the market itself is not mutated by this core. -/
def PerpPosition.change_base_and_quote_positions (p : PerpPosition) (_m : PerpMarket)
    (base_delta : Int) (quote_delta : ℚ) : PerpPosition :=
  { p with base_position_lots := p.base_position_lots + base_delta,
           quote_position_native := p.quote_position_native + quote_delta }

/-- Fixed header of a mango account: authorization data and the liquidation
state-machine flags. -/
structure AccountFixed where
  owner : Pubkey
  delegate : Pubkey
  being_liquidated : Bool
  in_health_region : Bool
deriving DecidableEq, Repr

/-- Modelled from the spec: the authorization relation of an account is
owner or delegate (spec section 3, Account; the MangoAccount source file is
not part of src/). -/
def AccountFixed.is_owner_or_delegate (f : AccountFixed) (k : Pubkey) : Bool :=
  f.owner == k || f.delegate == k

def AccountFixed.set_being_liquidated (f : AccountFixed) (b : Bool) : AccountFixed :=
  { f with being_liquidated := b }

/-- Modelled from the spec: an account flagged BeingLiquidated transitions
back to Healthy exactly when its Initial health is at least zero (spec
section 4.2; the MangoAccount source file is not part of src/).  Returns
whether the account recovered together with the updated header. -/
def AccountFixed.maybe_recover_from_being_liquidated (f : AccountFixed)
    (init_health : ℚ) : Bool × AccountFixed :=
  if f.being_liquidated ∧ 0 ≤ init_health then
    (true, f.set_being_liquidated false)
  else
    (false, f)

/-- A mango account: the fixed header plus its perp positions. -/
structure MangoAccount where
  fixed : AccountFixed
  perps : List PerpPosition
deriving DecidableEq, Repr

/-- Look up the perp position of the account for a market index. -/
def MangoAccount.perp_position (a : MangoAccount) (idx : Nat) : Option PerpPosition :=
  a.perps.find? (fun p => p.market_index == idx)

/-- A freshly created, empty perp position for a market index. -/
def emptyPerpPosition (idx : Nat) : PerpPosition :=
  { market_index := idx
    base_position_lots := 0
    quote_position_native := 0
    long_settled_funding := 0
    short_settled_funding := 0
    has_open_orders := false }

/-- Modelled from the spec: ensure_position creates a position for the
market if the account has none (spec section 6; the MangoAccount source
file is not part of src/).  Slot-capacity exhaustion is not modelled. -/
def MangoAccount.ensure_perp_position (a : MangoAccount) (idx : Nat) : MangoAccount :=
  if (a.perp_position idx).isSome then a
  else { a with perps := a.perps ++ [emptyPerpPosition idx] }

/-- Apply a function to the perp position of the account for a market
index, mirroring mutation through a mutable reference in the source. -/
def MangoAccount.with_perp (a : MangoAccount) (idx : Nat)
    (f : PerpPosition → PerpPosition) : MangoAccount :=
  { a with perps := a.perps.map (fun p => if p.market_index == idx then f p else p) }

/-- External collaborators of the instruction (spec sections 1 and 6): the
health engine queries and the oracle.  A none result models a failing
query (stale oracle, failing account retriever or health cache). -/
structure HealthEnv where
  liqee_pre : Option (ℚ × ℚ)
  liqee_init_after : MangoAccount → Option ℚ
  liqor_init_after : MangoAccount → Option ℚ
  oracle_price : Option ℚ

/-- Signed 64-bit integer range check used to model checked_to_num. -/
def fitsI64 (x : Int) : Prop := -(2 ^ 63) ≤ x ∧ x < 2 ^ 63

instance (x : Int) : Decidable (fitsI64 x) := by unfold fitsI64; infer_instance

/-- Executable floor of a rational to an integer, used to model
checked_floor of the fixed-point type. -/
def ratFloorI (q : ℚ) : Int := q.num / q.den

/-- Executable ceiling of a rational to an integer, used to model
checked_ceil of the fixed-point type. -/
def ratCeilI (q : ℚ) : Int := -ratFloorI (-q)

theorem ratFloorI_eq (q : ℚ) : ratFloorI q = ⌊q⌋ := Rat.floor_def.symm

theorem ratCeilI_eq (q : ℚ) : ratCeilI q = ⌈q⌉ := by
  rw [ratCeilI, ratFloorI_eq, Int.floor_neg, neg_neg]

/-- The liquidation sizing computation, lines 103 to 160 of
perp_liq_base_position.rs: branch on the sign of the liqee base position,
require the matching sign of max_base_transfer, divide the negated health
by the per-lot health sensitivity with directional rounding, clamp by the
position and the caller bound, and derive the quote transfer. -/
def perp_liq_sizing (liqee_init_health price_per_lot init_asset_weight
    init_liab_weight liquidation_fee : ℚ)
    (liqee_base_lots max_base_transfer : Int) : Except MangoError (Int × ℚ) :=
  if liqee_base_lots > 0 then
    if ¬ max_base_transfer > 0 then .error .RequireMsgViolation
    else
      let health_per_lot :=
        price_per_lot * (1 - init_asset_weight - liquidation_fee)
      if health_per_lot = 0 then .error .Panic
      else
        let base_transfer_for_zero : Int := ratCeilI (-liqee_init_health / health_per_lot)
        if ¬ fitsI64 base_transfer_for_zero then .error .Panic
        else
          let base_transfer : Int :=
            max (min (min base_transfer_for_zero liqee_base_lots) max_base_transfer) 0
          let quote_transfer :=
            -(base_transfer : ℚ) * price_per_lot * (1 - liquidation_fee)
          .ok (base_transfer, quote_transfer)
  else
    if ¬ max_base_transfer < 0 then .error .RequireMsgViolation
    else
      let health_per_lot :=
        price_per_lot * (init_liab_weight - 1 + liquidation_fee)
      if health_per_lot = 0 then .error .Panic
      else
        let base_transfer_for_zero : Int := ratFloorI (liqee_init_health / health_per_lot)
        if ¬ fitsI64 base_transfer_for_zero then .error .Panic
        else
          let base_transfer : Int :=
            min (max (max base_transfer_for_zero liqee_base_lots) max_base_transfer) 0
          let quote_transfer :=
            -(base_transfer : ℚ) * price_per_lot * (1 + liquidation_fee)
          .ok (base_transfer, quote_transfer)

/-- The liquidation state-machine gate, lines 61 to 76 of
perp_liq_base_position.rs: a flagged liqee may recover (early Ok return,
signalled by a true first component); an unflagged liqee must have
strictly negative Maintenance health and is then flagged. -/
def liqee_entry_gate (liqee_init_health maint_health : ℚ)
    (liqee : MangoAccount) : Except MangoError (Bool × MangoAccount) :=
  if liqee.fixed.being_liquidated then
    let r := liqee.fixed.maybe_recover_from_being_liquidated liqee_init_health
    .ok (r.1, { liqee with fixed := r.2 })
  else
    if maint_health < 0 then
      .ok (false, { liqee with fixed := liqee.fixed.set_being_liquidated true })
    else .error .HealthMustBeNegative

/-- The transfer execution, lines 162 to 173 of perp_liq_base_position.rs:
the liqee receives the negated deltas and the liqor the deltas. -/
def apply_transfer (m : PerpMarket) (idx : Nat) (liqee liqor : MangoAccount)
    (base_transfer : Int) (quote_transfer : ℚ) : MangoAccount × MangoAccount :=
  (liqee.with_perp idx
      (fun p => p.change_base_and_quote_positions m (-base_transfer) (-quote_transfer)),
   liqor.with_perp idx
      (fun p => p.change_base_and_quote_positions m base_transfer quote_transfer))

/-- The full instruction body, lines 31 to 194 of
perp_liq_base_position.rs, as a function from the incoming account states
to either an error or the successor states (liqor, liqee, market).  The
steps mirror the source order: authorization, liqor liquidation flag,
liqee health cache, state-machine gate, oracle price, position fetches,
open-orders check, funding settlement, zero-position check, sizing,
transfer, liqee health recheck with possible recovery, liqor health
check. -/
def perp_liq_base_position (env : HealthEnv) (liqor_owner : Pubkey)
    (max_base_transfer : Int) (perp_market : PerpMarket)
    (liqor liqee : MangoAccount) :
    Except MangoError (MangoAccount × MangoAccount × PerpMarket) :=
  if ¬ liqor.fixed.is_owner_or_delegate liqor_owner then .error .SomeError
  else if liqor.fixed.being_liquidated then .error .BeingLiquidated
  else
    match env.liqee_pre with
    | none => .error .HealthCacheError
    | some (liqee_init_health, maint_health) =>
      match liqee_entry_gate liqee_init_health maint_health liqee with
      | .error e => .error e
      | .ok (true, liqee1) => .ok (liqor, liqee1, perp_market)
      | .ok (false, liqee1) =>
        match env.oracle_price with
        | none => .error .OracleError
        | some oracle_price =>
          let idx := perp_market.perp_market_index
          let price_per_lot := (perp_market.base_lot_size : ℚ) * oracle_price
          match liqee1.perp_position idx with
          | none => .error .PerpPositionMissing
          | some liqee_pos =>
            let liqor1 := liqor.ensure_perp_position idx
            let liqee_base_lots := liqee_pos.base_position_lots
            if liqee_pos.has_open_orders then .error .HasOpenPerpOrders
            else
              let liqee2 := liqee1.with_perp idx (fun p => p.settle_funding perp_market)
              let liqor2 := liqor1.with_perp idx (fun p => p.settle_funding perp_market)
              if liqee_base_lots = 0 then .error .RequireMsgViolation
              else
                match perp_liq_sizing liqee_init_health price_per_lot
                    perp_market.init_asset_weight perp_market.init_liab_weight
                    perp_market.liquidation_fee liqee_base_lots max_base_transfer with
                | .error e => .error e
                | .ok (base_transfer, quote_transfer) =>
                  let stepped :=
                    apply_transfer perp_market idx liqee2 liqor2 base_transfer quote_transfer
                  let liqee3 := stepped.1
                  let liqor3 := stepped.2
                  match env.liqee_init_after liqee3 with
                  | none => .error .HealthCacheError
                  | some h2 =>
                    let liqee4 :=
                      { liqee3 with fixed :=
                          (liqee3.fixed.maybe_recover_from_being_liquidated h2).2 }
                    if liqor.fixed.in_health_region then .ok (liqor3, liqee4, perp_market)
                    else
                      match env.liqor_init_after liqor3 with
                      | none => .error .HealthCacheError
                      | some liqor_health =>
                        if liqor_health < 0 then .error .HealthMustBePositive
                        else .ok (liqor3, liqee4, perp_market)

/-- Transactional semantics of the surrounding ledger: the mutations of an
instruction are retained only when it returns Ok; an error leaves every
account and the market in its incoming state. -/
def perp_liq_base_position_run (env : HealthEnv) (liqor_owner : Pubkey)
    (max_base_transfer : Int) (perp_market : PerpMarket)
    (liqor liqee : MangoAccount) : MangoAccount × MangoAccount × PerpMarket :=
  match perp_liq_base_position env liqor_owner max_base_transfer perp_market liqor liqee with
  | .ok s => s
  | .error _ => (liqor, liqee, perp_market)

/-! ## Claim theorems -/

/-- C1: on the long branch (victim base-lot position L strictly positive)
the sizing errors unless the caller bound M is strictly positive;
otherwise, with H the pre-transfer Initial health and sensitivity
s = price_per_lot * (1 - initial_asset_weight - liquidation_fee), it
returns the transfer t = clamp(ceil(-H / s), 0, min L M) together with the
quote amount -t * price_per_lot * (1 - liquidation_fee), and
0 <= t <= min L M holds. -/
theorem long_branch_sizing_spec (H ppl Aw Lw f : ℚ) (L M : Int) (s : ℚ)
    (hL : 0 < L) (hs : s = ppl * (1 - Aw - f)) :
    (M ≤ 0 → perp_liq_sizing H ppl Aw Lw f L M = .error .RequireMsgViolation)
    ∧ (0 < M → s ≠ 0 → fitsI64 ⌈-H / s⌉ →
        perp_liq_sizing H ppl Aw Lw f L M =
          .ok (max 0 (min ⌈-H / s⌉ (min L M)),
               -((max 0 (min ⌈-H / s⌉ (min L M)) : Int) : ℚ) * ppl * (1 - f))
        ∧ 0 ≤ max 0 (min ⌈-H / s⌉ (min L M))
        ∧ max 0 (min ⌈-H / s⌉ (min L M)) ≤ min L M) := by
  subst hs
  constructor
  · intro hM
    unfold perp_liq_sizing
    rw [if_pos hL, if_pos (by omega : ¬ M > 0)]
  · intro hM hs0 hfit
    rw [← ratCeilI_eq] at hfit ⊢
    unfold perp_liq_sizing
    rw [if_pos hL, if_neg (by omega : ¬ ¬ M > 0), if_neg hs0, if_neg (not_not.mpr hfit)]
    have ht : max (min (min (ratCeilI (-H / (ppl * (1 - Aw - f)))) L) M) 0
        = max 0 (min (ratCeilI (-H / (ppl * (1 - Aw - f)))) (min L M)) := by omega
    refine ⟨by rw [ht], by omega, by omega⟩

/-- C2: on the short branch (victim base-lot position L strictly negative)
the sizing errors unless the caller bound M is strictly negative;
otherwise, with sensitivity
s = price_per_lot * (initial_liab_weight - 1 + liquidation_fee), it
returns the transfer t = clamp(floor(H / s), max L M, 0) together with the
quote amount -t * price_per_lot * (1 + liquidation_fee), and
max L M <= t <= 0 holds. -/
theorem short_branch_sizing_spec (H ppl Aw Lw f : ℚ) (L M : Int) (s : ℚ)
    (hL : L < 0) (hs : s = ppl * (Lw - 1 + f)) :
    (0 ≤ M → perp_liq_sizing H ppl Aw Lw f L M = .error .RequireMsgViolation)
    ∧ (M < 0 → s ≠ 0 → fitsI64 ⌊H / s⌋ →
        perp_liq_sizing H ppl Aw Lw f L M =
          .ok (min (max ⌊H / s⌋ (max L M)) 0,
               -((min (max ⌊H / s⌋ (max L M)) 0 : Int) : ℚ) * ppl * (1 + f))
        ∧ max L M ≤ min (max ⌊H / s⌋ (max L M)) 0
        ∧ min (max ⌊H / s⌋ (max L M)) 0 ≤ 0) := by
  subst hs
  constructor
  · intro hM
    unfold perp_liq_sizing
    rw [if_neg (by omega : ¬ L > 0), if_pos (by omega : ¬ M < 0)]
  · intro hM hs0 hfit
    rw [← ratFloorI_eq] at hfit ⊢
    unfold perp_liq_sizing
    rw [if_neg (by omega : ¬ L > 0), if_neg (by omega : ¬ ¬ M < 0), if_neg hs0,
      if_neg (not_not.mpr hfit)]
    have ht : min (max (max (ratFloorI (H / (ppl * (Lw - 1 + f)))) L) M) 0
        = min (max (ratFloorI (H / (ppl * (Lw - 1 + f)))) (max L M)) 0 := by omega
    refine ⟨by rw [ht], by omega, by omega⟩

/-- Witness for C1: at H = -10, price_per_lot = 2, Aw = 4/5, f = 1/10,
L = 100, M = 30 the sensitivity is 1/5, the zero-health count is 50, and
the executed transfer is 30 lots for a quote amount of -54. -/
theorem long_branch_sizing_spec_witness :
    (0 : Int) < 100 ∧ (0 : Int) < 30
    ∧ perp_liq_sizing (-10) 2 (4/5) 1 (1/10) 100 30 = .ok (30, -54) := by
  have h := (long_branch_sizing_spec (-10) 2 (4/5) 1 (1/10) 100 30 (2 * (1 - 4/5 - 1/10))
      (by decide) rfl).2 (by decide) (by with_unfolding_all decide)
      (by with_unfolding_all decide)
  refine ⟨by decide, by decide, ?_⟩
  rw [h.1]
  with_unfolding_all rfl

/-- Witness for C2: at H = -10, price_per_lot = 2, Lw = 6/5, f = 1/10,
L = -40, M = -10 the sensitivity is 3/5, the zero-health count is -17, and
the executed transfer is -10 lots for a quote amount of 22 (the caller
bound caps before the physical limit, as in spec Scenario C). -/
theorem short_branch_sizing_spec_witness :
    (-40 : Int) < 0 ∧ (-10 : Int) < 0
    ∧ perp_liq_sizing (-10) 2 1 (6/5) (1/10) (-40) (-10) = .ok (-10, 22) := by
  have h := (short_branch_sizing_spec (-10) 2 1 (6/5) (1/10) (-40) (-10) (2 * (6/5 - 1 + 1/10))
      (by decide) rfl).2 (by decide) (by with_unfolding_all decide)
      (by with_unfolding_all decide)
  refine ⟨by decide, by decide, ?_⟩
  rw [h.1]
  with_unfolding_all rfl

/-- C3: for a victim not yet flagged as being liquidated, the instruction
errors with HealthMustBeNegative (leaving every account unchanged) when
the Maintenance health is not strictly negative, and when it is strictly
negative the entry gate marks the victim as being liquidated before any
transfer is computed. -/
theorem entry_gate_spec (env : HealthEnv) (liqor_owner : Pubkey) (M : Int)
    (mkt : PerpMarket) (liqor liqee : MangoAccount) (ih mh : ℚ)
    (hauth : liqor.fixed.is_owner_or_delegate liqor_owner = true)
    (hlf : liqor.fixed.being_liquidated = false)
    (hpre : env.liqee_pre = some (ih, mh))
    (hflag : liqee.fixed.being_liquidated = false) :
    (¬ mh < 0 →
        perp_liq_base_position env liqor_owner M mkt liqor liqee =
          .error .HealthMustBeNegative
        ∧ perp_liq_base_position_run env liqor_owner M mkt liqor liqee = (liqor, liqee, mkt))
    ∧ (mh < 0 →
        liqee_entry_gate ih mh liqee =
          .ok (false, { liqee with fixed := liqee.fixed.set_being_liquidated true })) := by
  constructor
  · intro hmh
    have herr : perp_liq_base_position env liqor_owner M mkt liqor liqee =
        .error .HealthMustBeNegative := by
      unfold perp_liq_base_position
      rw [hpre]
      simp only [hauth, hlf, not_true_eq_false, if_false, Bool.false_eq_true, if_false]
      unfold liqee_entry_gate
      rw [hflag]
      simp only [Bool.false_eq_true, if_false, if_neg hmh]
    exact ⟨herr, by unfold perp_liq_base_position_run; rw [herr]⟩
  · intro hmh
    unfold liqee_entry_gate
    rw [hflag]
    simp only [Bool.false_eq_true, if_false, if_pos hmh]

/-- Concrete fixtures for the entry-gate witness: an authorized liquidator
and an unflagged victim whose Maintenance health is +5 (spec Scenario D). -/
def c3Env : HealthEnv :=
  { liqee_pre := some (5, 5)
    liqee_init_after := fun _ => none
    liqor_init_after := fun _ => none
    oracle_price := none }

/-- Variant fixture with strictly negative Maintenance health. -/
def c3EnvB : HealthEnv :=
  { liqee_pre := some (5, -1)
    liqee_init_after := fun _ => none
    liqor_init_after := fun _ => none
    oracle_price := none }

def c3Liqor : MangoAccount :=
  { fixed := { owner := 1, delegate := 2, being_liquidated := false, in_health_region := false }
    perps := [] }

def c3Liqee : MangoAccount :=
  { fixed := { owner := 3, delegate := 4, being_liquidated := false, in_health_region := false }
    perps := [] }

def c3Market : PerpMarket :=
  { perp_market_index := 0, base_lot_size := 1, init_asset_weight := 4/5
    init_liab_weight := 6/5, liquidation_fee := 1/10, long_funding := 0, short_funding := 0 }

/-- Witness for C3: at the Scenario D fixtures the instruction errors with
HealthMustBeNegative and the transactional run leaves all state unchanged,
and for a strictly negative Maintenance health the gate flags the victim. -/
theorem entry_gate_spec_witness :
    (perp_liq_base_position c3Env 1 10 c3Market c3Liqor c3Liqee =
        .error .HealthMustBeNegative
      ∧ perp_liq_base_position_run c3Env 1 10 c3Market c3Liqor c3Liqee =
        (c3Liqor, c3Liqee, c3Market))
    ∧ liqee_entry_gate 5 (-1) c3Liqee =
        .ok (false, { c3Liqee with fixed := c3Liqee.fixed.set_being_liquidated true }) := by
  have h := entry_gate_spec c3Env 1 10 c3Market c3Liqor c3Liqee 5 5
    (by decide) (by decide) rfl (by decide)
  have h2 := entry_gate_spec c3EnvB 1 10 c3Market c3Liqor c3Liqee 5 (-1)
    (by decide) (by decide) rfl (by decide)
  exact ⟨h.1 (by decide), h2.2 (by decide)⟩

/-- C4 (amended): for a victim already flagged as being liquidated whose
pre-transfer Initial health is at least zero, the instruction returns
success immediately with no transfer and no mutation of the liquidator or
the market, but it does mutate the victim: the being-liquidated flag is
cleared by the recovery check before the early return. -/
theorem early_return_clears_flag (env : HealthEnv) (liqor_owner : Pubkey) (M : Int)
    (mkt : PerpMarket) (liqor liqee : MangoAccount) (ih mh : ℚ)
    (hauth : liqor.fixed.is_owner_or_delegate liqor_owner = true)
    (hlf : liqor.fixed.being_liquidated = false)
    (hpre : env.liqee_pre = some (ih, mh))
    (hflag : liqee.fixed.being_liquidated = true)
    (hih : 0 ≤ ih) :
    perp_liq_base_position env liqor_owner M mkt liqor liqee =
      .ok (liqor, { liqee with fixed := liqee.fixed.set_being_liquidated false }, mkt) := by
  unfold perp_liq_base_position
  rw [hpre]
  simp only [hauth, hlf, not_true_eq_false, if_false, Bool.false_eq_true, if_false]
  unfold liqee_entry_gate AccountFixed.maybe_recover_from_being_liquidated
  rw [hflag]
  simp only [if_true, true_and, if_pos hih]

/-- Concrete fixtures for the early-return claim: a flagged victim whose
Initial health is +5 (already recovered). -/
def c4Env : HealthEnv :=
  { liqee_pre := some (5, -17)
    liqee_init_after := fun _ => none
    liqor_init_after := fun _ => none
    oracle_price := none }

def c4Liqor : MangoAccount :=
  { fixed := { owner := 1, delegate := 2, being_liquidated := false, in_health_region := false }
    perps := [] }

def c4Liqee : MangoAccount :=
  { fixed := { owner := 3, delegate := 4, being_liquidated := true, in_health_region := false }
    perps := [] }

def c4Market : PerpMarket :=
  { perp_market_index := 0, base_lot_size := 1, init_asset_weight := 4/5
    init_liab_weight := 6/5, liquidation_fee := 1/10, long_funding := 0, short_funding := 0 }

/-- Counterexample to C4 as stated: at the c4 fixtures (victim flagged,
Initial health +5) the early return succeeds, but the victim account it
returns is a mutated one: the being-liquidated flag has been cleared, so
the claim that no mutation of either account is performed is false. -/
theorem early_return_mutation_cex :
    perp_liq_base_position c4Env 1 10 c4Market c4Liqor c4Liqee =
      .ok (c4Liqor, { c4Liqee with fixed := c4Liqee.fixed.set_being_liquidated false }, c4Market)
    ∧ c4Liqee.fixed.being_liquidated = true
    ∧ ({ c4Liqee with fixed := c4Liqee.fixed.set_being_liquidated false }) ≠ c4Liqee := by
  refine ⟨by with_unfolding_all rfl, by decide, by decide⟩

/-- Witness for the amended C4: the early return at the c4 fixtures
returns success with the liquidator and market untouched and only the
victim flag cleared. -/
theorem early_return_clears_flag_witness :
    c4Liqee.fixed.being_liquidated = true ∧ (0 : ℚ) ≤ 5
    ∧ perp_liq_base_position c4Env 1 10 c4Market c4Liqor c4Liqee =
      .ok (c4Liqor, { c4Liqee with fixed := c4Liqee.fixed.set_being_liquidated false },
        c4Market) :=
  ⟨rfl, by decide,
    early_return_clears_flag c4Env 1 10 c4Market c4Liqor c4Liqee 5 (-17)
      (by decide) (by decide) rfl (by decide) (by decide)⟩

/-- C6: whenever the instruction returns an error, the transactional run
semantics leaves the victim, the liquidator and the market exactly in
their initial state: the Except-valued body produces a successor state
only on Ok, and the surrounding ledger discards all in-memory mutations of
a failed instruction. -/
theorem error_implies_no_mutation (env : HealthEnv) (liqor_owner : Pubkey) (M : Int)
    (mkt : PerpMarket) (liqor liqee : MangoAccount) (e : MangoError)
    (h : perp_liq_base_position env liqor_owner M mkt liqor liqee = .error e) :
    perp_liq_base_position_run env liqor_owner M mkt liqor liqee = (liqor, liqee, mkt) := by
  unfold perp_liq_base_position_run
  rw [h]

/-- Witness for C6: an unauthorized call (owner 9 is neither owner nor
delegate) errors with SomeError and the run leaves all state unchanged. -/
theorem error_implies_no_mutation_witness :
    perp_liq_base_position c3Env 9 10 c3Market c3Liqor c3Liqee = .error .SomeError
    ∧ perp_liq_base_position_run c3Env 9 10 c3Market c3Liqor c3Liqee =
        (c3Liqor, c3Liqee, c3Market) :=
  have h : perp_liq_base_position c3Env 9 10 c3Market c3Liqor c3Liqee =
      .error .SomeError := by with_unfolding_all rfl
  ⟨h, error_implies_no_mutation c3Env 9 10 c3Market c3Liqor c3Liqee .SomeError h⟩

/-- C8: a call whose signer is neither owner nor delegate of the
liquidator fails with SomeError, and a call whose liquidator account is
itself flagged as being liquidated fails with BeingLiquidated; both leave
every account and the market unchanged. -/
theorem authorization_gate_spec (env : HealthEnv) (liqor_owner : Pubkey) (M : Int)
    (mkt : PerpMarket) (liqor liqee : MangoAccount) :
    (liqor.fixed.is_owner_or_delegate liqor_owner = false →
        perp_liq_base_position env liqor_owner M mkt liqor liqee = .error .SomeError
        ∧ perp_liq_base_position_run env liqor_owner M mkt liqor liqee = (liqor, liqee, mkt))
    ∧ (liqor.fixed.is_owner_or_delegate liqor_owner = true →
        liqor.fixed.being_liquidated = true →
        perp_liq_base_position env liqor_owner M mkt liqor liqee = .error .BeingLiquidated
        ∧ perp_liq_base_position_run env liqor_owner M mkt liqor liqee = (liqor, liqee, mkt)) := by
  constructor
  · intro hauth
    have herr : perp_liq_base_position env liqor_owner M mkt liqor liqee =
        .error .SomeError := by
      unfold perp_liq_base_position
      simp only [hauth, Bool.false_eq_true, not_false_eq_true, if_true]
    exact ⟨herr, by unfold perp_liq_base_position_run; rw [herr]⟩
  · intro hauth hbl
    have herr : perp_liq_base_position env liqor_owner M mkt liqor liqee =
        .error .BeingLiquidated := by
      unfold perp_liq_base_position
      simp only [hauth, not_true_eq_false, if_false, hbl, if_true]
    exact ⟨herr, by unfold perp_liq_base_position_run; rw [herr]⟩

/-- Fixture for the authorization witness: a liquidator account that is
itself flagged as being liquidated. -/
def c8Liqor : MangoAccount :=
  { fixed := { owner := 1, delegate := 2, being_liquidated := true, in_health_region := false }
    perps := [] }

/-- Witness for C8: owner 9 is rejected with SomeError, and a flagged
liquidator is rejected with BeingLiquidated; both runs keep the state. -/
theorem authorization_gate_spec_witness :
    (c3Liqor.fixed.is_owner_or_delegate 9 = false
      ∧ perp_liq_base_position c3Env 9 10 c3Market c3Liqor c3Liqee = .error .SomeError)
    ∧ (c8Liqor.fixed.is_owner_or_delegate 1 = true
      ∧ perp_liq_base_position c3Env 1 10 c3Market c8Liqor c3Liqee = .error .BeingLiquidated
      ∧ perp_liq_base_position_run c3Env 1 10 c3Market c8Liqor c3Liqee =
          (c8Liqor, c3Liqee, c3Market)) :=
  have h1 := (authorization_gate_spec c3Env 9 10 c3Market c3Liqor c3Liqee).1 (by decide)
  have h2 := (authorization_gate_spec c3Env 1 10 c3Market c8Liqor c3Liqee).2
    (by decide) (by decide)
  ⟨⟨by decide, h1.1⟩, ⟨by decide, h2.1, h2.2⟩⟩

/-- C9: a call that passes the authorization checks and the state-machine
gate (without the early recovery return) but finds a victim perp position
of zero base lots errors before any transfer, and the run leaves all
state unchanged. -/
theorem zero_position_errors (env : HealthEnv) (liqor_owner : Pubkey) (M : Int)
    (mkt : PerpMarket) (liqor liqee liqee1 : MangoAccount) (ih mh p : ℚ)
    (pos : PerpPosition)
    (hauth : liqor.fixed.is_owner_or_delegate liqor_owner = true)
    (hlf : liqor.fixed.being_liquidated = false)
    (hpre : env.liqee_pre = some (ih, mh))
    (hgate : liqee_entry_gate ih mh liqee = .ok (false, liqee1))
    (hor : env.oracle_price = some p)
    (hpos : liqee1.perp_position mkt.perp_market_index = some pos)
    (hoo : pos.has_open_orders = false)
    (hzero : pos.base_position_lots = 0) :
    perp_liq_base_position env liqor_owner M mkt liqor liqee = .error .RequireMsgViolation
    ∧ perp_liq_base_position_run env liqor_owner M mkt liqor liqee = (liqor, liqee, mkt) := by
  have herr : perp_liq_base_position env liqor_owner M mkt liqor liqee =
      .error .RequireMsgViolation := by
    unfold perp_liq_base_position
    rw [hpre]
    simp only [hauth, hlf, not_true_eq_false, if_false, Bool.false_eq_true, if_false,
      hgate, hor, hpos, hoo, hzero, if_true, if_pos rfl]
  exact ⟨herr, by unfold perp_liq_base_position_run; rw [herr]⟩

/-- Fixtures for the zero-position witness: a flagged victim (still
unhealthy, Initial health -5) holding a zero-lot position in market 0. -/
def c9Env : HealthEnv :=
  { liqee_pre := some (-5, -7)
    liqee_init_after := fun _ => none
    liqor_init_after := fun _ => none
    oracle_price := some 1 }

def c9Pos : PerpPosition :=
  { market_index := 0, base_position_lots := 0, quote_position_native := 3
    long_settled_funding := 0, short_settled_funding := 0, has_open_orders := false }

def c9Liqee : MangoAccount :=
  { fixed := { owner := 3, delegate := 4, being_liquidated := true, in_health_region := false }
    perps := [c9Pos] }

/-- Witness for C9: at the c9 fixtures the instruction errors with
RequireMsgViolation (zero base position) and the run keeps the state. -/
theorem zero_position_errors_witness :
    c9Pos.base_position_lots = 0
    ∧ perp_liq_base_position c9Env 1 10 c3Market c3Liqor c9Liqee =
        .error .RequireMsgViolation
    ∧ perp_liq_base_position_run c9Env 1 10 c3Market c3Liqor c9Liqee =
        (c3Liqor, c9Liqee, c3Market) :=
  have h := zero_position_errors c9Env 1 10 c3Market c3Liqor c9Liqee c9Liqee
    (-5) (-7) 1 c9Pos (by decide) (by decide) rfl (by with_unfolding_all rfl) rfl
    (by with_unfolding_all rfl) (by decide) (by decide)
  ⟨by decide, h.1, h.2⟩

/-- Updating the position for a market index commutes with looking it up,
provided the update preserves the market index. -/
theorem find_map_update (l : List PerpPosition) (idx : Nat)
    (f : PerpPosition → PerpPosition)
    (hf : ∀ p, (f p).market_index = p.market_index) :
    (l.map (fun p => if p.market_index == idx then f p else p)).find?
        (fun p => p.market_index == idx)
      = (l.find? (fun p => p.market_index == idx)).map f := by
  induction l with
  | nil => rfl
  | cons a l ih =>
    by_cases h : a.market_index = idx
    · have ha : (a.market_index == idx) = true := beq_iff_eq.mpr h
      have hfa : ((f a).market_index == idx) = true := by rw [hf]; exact ha
      simp only [List.map_cons, ha, if_true, List.find?_cons, hfa]
      rfl
    · have ha : (a.market_index == idx) = false := beq_eq_false_iff_ne.mpr h
      simp only [List.map_cons, ha, Bool.false_eq_true, if_false, List.find?_cons, ih]

theorem MangoAccount.with_perp_position_eq (a : MangoAccount) (idx : Nat)
    (f : PerpPosition → PerpPosition)
    (hf : ∀ p, (f p).market_index = p.market_index) :
    (a.with_perp idx f).perp_position idx = (a.perp_position idx).map f :=
  find_map_update a.perps idx f hf

/-- C10: the executed transfer mutates the two positions symmetrically:
the victim position receives (-t, -quote), the liquidator position
receives (+t, +quote), so the base-lot deltas and the quote deltas each
sum to zero. -/
theorem transfer_conserves_deltas (m : PerpMarket) (idx : Nat)
    (liqee liqor : MangoAccount) (t : Int) (q : ℚ) (pe pl pe2 pl2 : PerpPosition)
    (he : liqee.perp_position idx = some pe)
    (hl : liqor.perp_position idx = some pl)
    (he2 : (apply_transfer m idx liqee liqor t q).1.perp_position idx = some pe2)
    (hl2 : (apply_transfer m idx liqee liqor t q).2.perp_position idx = some pl2) :
    (pe2.base_position_lots - pe.base_position_lots = -t
      ∧ pe2.quote_position_native - pe.quote_position_native = -q)
    ∧ (pl2.base_position_lots - pl.base_position_lots = t
      ∧ pl2.quote_position_native - pl.quote_position_native = q)
    ∧ (pe2.base_position_lots - pe.base_position_lots)
        + (pl2.base_position_lots - pl.base_position_lots) = 0
    ∧ (pe2.quote_position_native - pe.quote_position_native)
        + (pl2.quote_position_native - pl.quote_position_native) = 0 := by
  unfold apply_transfer at he2 hl2
  dsimp only at he2 hl2
  rw [MangoAccount.with_perp_position_eq liqee idx
    (fun p => p.change_base_and_quote_positions m (-t) (-q)) (fun p => rfl), he] at he2
  rw [MangoAccount.with_perp_position_eq liqor idx
    (fun p => p.change_base_and_quote_positions m t q) (fun p => rfl), hl] at hl2
  rw [Option.map_some'] at he2 hl2
  injection he2 with he2
  injection hl2 with hl2
  subst he2
  subst hl2
  unfold PerpPosition.change_base_and_quote_positions
  dsimp only
  refine ⟨⟨by omega, by ring⟩, ⟨by omega, by ring⟩, by omega, by ring⟩

/-- Fixtures for the conservation witness: both parties hold a position in
market 0 and a transfer of 5 lots against 5 quote is applied. -/
def c10Liqee : MangoAccount :=
  { fixed := { owner := 3, delegate := 4, being_liquidated := true, in_health_region := false }
    perps := [{ market_index := 0, base_position_lots := 7, quote_position_native := 1
                long_settled_funding := 0, short_settled_funding := 0
                has_open_orders := false }] }

def c10Liqor : MangoAccount :=
  { fixed := { owner := 1, delegate := 2, being_liquidated := false, in_health_region := false }
    perps := [{ market_index := 0, base_position_lots := 2, quote_position_native := 3
                long_settled_funding := 0, short_settled_funding := 0
                has_open_orders := false }] }

/-- Witness for C10: applying the transfer (5, -5) at the c10 fixtures
moves the victim from (7, 1) to (2, 6) and the liquidator from (2, 3) to
(7, -2); the deltas are (-5, +5) and (+5, -5) and sum to zero. -/
theorem transfer_conserves_deltas_witness :
    ((2 : Int) - 7 = -(5 : Int) ∧ (6 : ℚ) - 1 = -(-5 : ℚ))
    ∧ ((7 : Int) - 2 = (5 : Int) ∧ (-2 : ℚ) - 3 = (-5 : ℚ))
    ∧ ((2 : Int) - 7) + ((7 : Int) - 2) = 0
    ∧ ((6 : ℚ) - 1) + ((-2 : ℚ) - 3) = 0 := by
  have h := transfer_conserves_deltas c3Market 0 c10Liqee c10Liqor 5 (-5)
    { market_index := 0, base_position_lots := 7, quote_position_native := 1
      long_settled_funding := 0, short_settled_funding := 0, has_open_orders := false }
    { market_index := 0, base_position_lots := 2, quote_position_native := 3
      long_settled_funding := 0, short_settled_funding := 0, has_open_orders := false }
    { market_index := 0, base_position_lots := 2, quote_position_native := 6
      long_settled_funding := 0, short_settled_funding := 0, has_open_orders := false }
    { market_index := 0, base_position_lots := 7, quote_position_native := -2
      long_settled_funding := 0, short_settled_funding := 0, has_open_orders := false }
    (by with_unfolding_all rfl) (by with_unfolding_all rfl)
    (by with_unfolding_all rfl) (by with_unfolding_all rfl)
  exact h

/-- C7 (amended): with a non-positive per-lot sensitivity the sizing
computation fails fast only in the zero case, where the checked division
aborts; with a strictly negative sensitivity it does not fail: the
zero-health lot count has the wrong sign, the clamp silently reduces it,
and a zero transfer is returned. -/
theorem degenerate_sensitivity_spec (H ppl Aw Lw f : ℚ) (L M : Int) :
    (∀ s : ℚ, s = ppl * (1 - Aw - f) → 0 < L → 0 < M → H < 0 →
        -(2 ^ 63) ≤ ⌈-H / s⌉ →
        (s = 0 → perp_liq_sizing H ppl Aw Lw f L M = .error .Panic)
        ∧ (s < 0 → perp_liq_sizing H ppl Aw Lw f L M = .ok (0, 0)))
    ∧ (∀ s : ℚ, s = ppl * (Lw - 1 + f) → L < 0 → M < 0 → H < 0 →
        ⌊H / s⌋ < 2 ^ 63 →
        (s = 0 → perp_liq_sizing H ppl Aw Lw f L M = .error .Panic)
        ∧ (s < 0 → perp_liq_sizing H ppl Aw Lw f L M = .ok (0, 0))) := by
  constructor
  · intro s hs hL hM hH hfit
    constructor
    · intro hz
      unfold perp_liq_sizing
      rw [if_pos hL, if_neg (by omega : ¬ ¬ M > 0), if_pos (by rw [← hs]; exact hz)]
    · intro hneg
      have hc : ⌈-H / s⌉ ≤ 0 := by
        refine Int.ceil_le.2 ?_
        rw [Int.cast_zero]
        exact div_nonpos_iff.2 (Or.inl ⟨by linarith, le_of_lt hneg⟩)
      rw [← ratCeilI_eq] at hc hfit
      subst hs
      unfold perp_liq_sizing
      rw [if_pos hL, if_neg (by omega : ¬ ¬ M > 0), if_neg (ne_of_lt hneg),
        if_neg (not_not.mpr ⟨hfit, by omega⟩)]
      have ht : max (min (min (ratCeilI (-H / (ppl * (1 - Aw - f)))) L) M) 0 = 0 := by
        omega
      rw [ht]
      norm_num
  · intro s hs hL hM hH hfit
    constructor
    · intro hz
      unfold perp_liq_sizing
      rw [if_neg (by omega : ¬ L > 0), if_neg (by omega : ¬ ¬ M < 0),
        if_pos (by rw [← hs]; exact hz)]
    · intro hneg
      have hc : 0 ≤ ⌊H / s⌋ := by
        refine Int.floor_nonneg.2 (div_nonneg_of_nonpos (le_of_lt hH) (le_of_lt hneg))
      rw [← ratFloorI_eq] at hc hfit
      subst hs
      unfold perp_liq_sizing
      rw [if_neg (by omega : ¬ L > 0), if_neg (by omega : ¬ ¬ M < 0), if_neg (ne_of_lt hneg),
        if_neg (not_not.mpr ⟨by omega, hfit⟩)]
      have ht : min (max (max (ratFloorI (H / (ppl * (Lw - 1 + f)))) L) M) 0 = 0 := by
        omega
      rw [ht]
      norm_num

/-- Counterexample to C7 as stated: with price_per_lot = 2, Aw = 3/2,
f = 0 the long-branch sensitivity is -1, strictly negative, yet the
sizing does not fail fast: it silently clamps the negative zero-health
count and returns the transfer (0, 0). -/
theorem degenerate_sensitivity_cex :
    (2 : ℚ) * (1 - 3/2 - 0) < 0
    ∧ perp_liq_sizing (-10) 2 (3/2) 1 0 5 3 = .ok (0, 0) :=
  ⟨by with_unfolding_all decide, by with_unfolding_all rfl⟩

/-- Witness for the amended C7, exercising both halves: with Aw = 1 and
f = 0 the sensitivity is exactly zero and the sizing panics on the
checked division, while with Aw = 3/2 the sensitivity is -1, strictly
negative, and the sizing returns the clamped zero transfer instead of
failing. -/
theorem degenerate_sensitivity_spec_witness :
    perp_liq_sizing (-10) 2 1 1 0 5 3 = .error .Panic
    ∧ perp_liq_sizing (-10) 2 (3/2) 1 0 5 3 = .ok (0, 0) :=
  have h1 := ((degenerate_sensitivity_spec (-10) 2 1 1 0 5 3).1 (2 * (1 - 1 - 0)) rfl
    (by decide) (by decide) (by with_unfolding_all decide)
    (by with_unfolding_all decide)).1 (by with_unfolding_all decide)
  have h2 := ((degenerate_sensitivity_spec (-10) 2 (3/2) 1 0 5 3).1 (2 * (1 - 3/2 - 0)) rfl
    (by decide) (by decide) (by with_unfolding_all decide)
    (by with_unfolding_all decide)).2 (by with_unfolding_all decide)
  ⟨h1, h2⟩

/-- C5 (amended): when the liquidator is not inside a health region, any
successful call that changed the liquidator account (a transfer was
executed) has passed the final health check: the health engine reported a
post-transfer liquidator Initial health and that value is non-negative;
a strictly negative report forces the instruction to abort.  Calls with
the liquidator inside a health region skip this check entirely. -/
theorem liqor_health_check_spec (env : HealthEnv) (liqor_owner : Pubkey) (M : Int)
    (mkt : PerpMarket) (liqor liqee l' e' : MangoAccount) (m' : PerpMarket)
    (hreg : liqor.fixed.in_health_region = false)
    (hok : perp_liq_base_position env liqor_owner M mkt liqor liqee = .ok (l', e', m'))
    (hne : l' ≠ liqor) :
    (env.liqor_init_after l').isSome = true
    ∧ ∀ hq : ℚ, env.liqor_init_after l' = some hq → 0 ≤ hq := by
  simp only [perp_liq_base_position] at hok
  repeat' split at hok
  all_goals simp_all
  obtain ⟨h1, h2, h3⟩ := hok
  subst h1
  subst h2
  subst h3
  simp_all

/-- Fixtures for the liquidator health check: an unflagged victim with a
long position of 5 lots, pre-transfer Initial health -10, oracle price 1,
asset weight 1/2 and zero fee, so the full position of 5 lots is taken
over against 5 quote.  The health engine reports -3 for the victim after
the transfer and -1 for the liquidator, and the liquidator account is
inside a health region. -/
def c5Market : PerpMarket :=
  { perp_market_index := 0, base_lot_size := 1, init_asset_weight := 1/2
    init_liab_weight := 3/2, liquidation_fee := 0, long_funding := 0, short_funding := 0 }

def c5Env : HealthEnv :=
  { liqee_pre := some (-10, -17)
    liqee_init_after := fun _ => some (-3)
    liqor_init_after := fun _ => some (-1)
    oracle_price := some 1 }

def c5Liqee : MangoAccount :=
  { fixed := { owner := 3, delegate := 4, being_liquidated := false, in_health_region := false }
    perps := [{ market_index := 0, base_position_lots := 5, quote_position_native := 0
                long_settled_funding := 0, short_settled_funding := 0
                has_open_orders := false }] }

def c5Liqor : MangoAccount :=
  { fixed := { owner := 1, delegate := 2, being_liquidated := false, in_health_region := true }
    perps := [] }

/-- Successor state of the liquidator at the c5 fixtures: a created
position holding the 5 transferred lots against -5 quote. -/
def c5LiqorFinal : MangoAccount :=
  { fixed := { owner := 1, delegate := 2, being_liquidated := false, in_health_region := true }
    perps := [{ market_index := 0, base_position_lots := 5, quote_position_native := -5
                long_settled_funding := 0, short_settled_funding := 0
                has_open_orders := false }] }

/-- Successor state of the victim at the c5 fixtures: flagged as being
liquidated, with the position emptied against +5 quote. -/
def c5LiqeeFinal : MangoAccount :=
  { fixed := { owner := 3, delegate := 4, being_liquidated := true, in_health_region := false }
    perps := [{ market_index := 0, base_position_lots := 0, quote_position_native := 5
                long_settled_funding := 0, short_settled_funding := 0
                has_open_orders := false }] }

/-- Counterexample to C5 as stated: at the c5 fixtures a transfer is
applied (the liquidator account changes) and the health engine reports a
strictly negative post-transfer liquidator Initial health of -1, yet the
instruction succeeds, because the liquidator is inside a health region
and the final check is skipped. -/
theorem health_region_skips_liqor_check_cex :
    perp_liq_base_position c5Env 1 100 c5Market c5Liqor c5Liqee =
      .ok (c5LiqorFinal, c5LiqeeFinal, c5Market)
    ∧ c5Env.liqor_init_after c5LiqorFinal = some (-1)
    ∧ (-1 : ℚ) < 0
    ∧ c5LiqorFinal ≠ c5Liqor :=
  ⟨by with_unfolding_all rfl, rfl, by decide, by decide⟩

/-- Variant fixtures for the amended C5 witness: same market and victim,
but the liquidator is not inside a health region and the health engine
reports +3 for it after the transfer. -/
def c5wEnv : HealthEnv :=
  { liqee_pre := some (-10, -17)
    liqee_init_after := fun _ => some (-3)
    liqor_init_after := fun _ => some 3
    oracle_price := some 1 }

def c5wLiqor : MangoAccount :=
  { fixed := { owner := 1, delegate := 2, being_liquidated := false, in_health_region := false }
    perps := [] }

def c5wLiqorFinal : MangoAccount :=
  { fixed := { owner := 1, delegate := 2, being_liquidated := false, in_health_region := false }
    perps := [{ market_index := 0, base_position_lots := 5, quote_position_native := -5
                long_settled_funding := 0, short_settled_funding := 0
                has_open_orders := false }] }

/-- Witness for the amended C5: at the variant fixtures the instruction
succeeds with a changed liquidator account outside a health region, so
the theorem yields that the engine reported a health value and that it
is non-negative. -/
theorem liqor_health_check_spec_witness :
    (c5wEnv.liqor_init_after c5wLiqorFinal).isSome = true ∧ (0 : ℚ) ≤ 3 :=
  have h := liqor_health_check_spec c5wEnv 1 100 c5Market c5wLiqor c5Liqee
    c5wLiqorFinal c5LiqeeFinal c5Market rfl (by with_unfolding_all rfl) (by decide)
  ⟨h.1, h.2 3 rfl⟩
